import Mathlib

/-!
Verification development for the cerrful static analyzer.

Shallow embedding of the parts of the analyzer needed to settle the claims:
the registry tables merged from hard-coded defaults and user config, the
per-error-variable fact records of the flow tracker, the span index
(containment tree over CIR nodes), the CIR translator's handling of return
statements, wrap-message normalization, and the CER rule-code rendering.

Go maps are modelled as association lists (`List (k × v)`) with
last-write-wins updates; a `nil` Go map is distinguished from an allocated
empty map by `Option` where the distinction is observable (nil-map writes
panic).  Panics are modelled as `Option`/`Except` failures.
-/

namespace Cerrful

/-- Key of the registry tables: `packagedFunc` from the source
(`pkgPath`, `name` pair). -/
structure packagedFunc where
  pkgPath : String
  name : String
deriving DecidableEq, Repr

/-- `SigWrapType` enumeration from the source (Invalid / Errorf / Wrap). -/
inductive SigWrapType where
  | SigWrapTypeInvalid
  | SigWrapTypeErrorf
  | SigWrapTypeWrap
deriving DecidableEq, Repr

/-- `SigLoggingType` enumeration from the source (Format / Slog / Zap). -/
inductive SigLoggingType where
  | SigLoggingTypeFormat
  | SigLoggingTypeSlog
  | SigLoggingTypeZap
deriving DecidableEq, Repr

/-- `SigAbandonType` enumeration from the source (Invalid / Format / Zap). -/
inductive SigAbandonType where
  | SigAbandonTypeInvalid
  | SigAbandonTypeFormat
  | SigAbandonTypeZap
deriving DecidableEq, Repr

/-- Lookup in a Go map modelled as an association list: `m[k]`. -/
def goMapGet {κ ν : Type} [DecidableEq κ] (m : List (κ × ν)) (k : κ) : Option ν :=
  (m.find? (fun e => e.1 = k)).map (·.2)

/-- Go map assignment `m[k] = v`: any previous binding of `k` is dropped and
the new one recorded.  Go maps are unordered, so the association list order is
irrelevant; the map is only observed through `goMapGet`. -/
def goMapSet {κ ν : Type} [DecidableEq κ] (m : List (κ × ν)) (k : κ) (v : ν) :
    List (κ × ν) :=
  m.filter (fun e => e.1 ≠ k) ++ [(k, v)]

/-- `maps.Insert(dst, maps.All(src))`: assign every entry of `src` into
`dst`, in order. -/
def goMapInsertAll {κ ν : Type} [DecidableEq κ] (dst src : List (κ × ν)) :
    List (κ × ν) :=
  src.foldl (fun acc e => goMapSet acc e.1 e.2) dst

/-- The hard-coded default wrapper table of `newKnownErrWrapChecker`
(src/unnamed/part_001). -/
def errWrapPredefined : List (packagedFunc × SigWrapType) :=
  [ (⟨"fmt", "Errorf"⟩, .SigWrapTypeErrorf),
    (⟨"github.com/sirkon/errors", "Wrap"⟩, .SigWrapTypeWrap),
    (⟨"github.com/sirkon/errors", "Wrapf"⟩, .SigWrapTypeWrap),
    (⟨"gitlab.corp.mail.ru/infra/hotbox/library/go/errors", "Wrap"⟩, .SigWrapTypeWrap),
    (⟨"gitlab.corp.mail.ru/infra/hotbox/library/go/errors", "Wrapf"⟩, .SigWrapTypeWrap),
    (⟨"github.com/pkg/errors", "Wrap"⟩, .SigWrapTypeWrap),
    (⟨"github.com/pkg/errors", "Wrapf"⟩, .SigWrapTypeWrap),
    (⟨"github.com/pkg/errors", "WithMessage"⟩, .SigWrapTypeWrap),
    (⟨"github.com/pkg/errors", "WithMessagef"⟩, .SigWrapTypeWrap),
    (⟨"golang.org/x/xerrors", "Errorf"⟩, .SigWrapTypeErrorf) ]

/-- `newKnownErrWrapChecker`: clone the custom map (empty when nil) and
`maps.Insert` all predefined entries into it; the result is the `known`
table. -/
def newKnownErrWrapChecker (custom : List (packagedFunc × SigWrapType)) :
    List (packagedFunc × SigWrapType) :=
  goMapInsertAll custom errWrapPredefined

/-- The hard-coded default logging table of `newKnownLoggingFuncs`
(src/funcs_logging.go). -/
def loggingPredefined : List (packagedFunc × SigLoggingType) :=
  [ (⟨"builtin", "print"⟩, .SigLoggingTypeFormat),
    (⟨"builtin", "printf"⟩, .SigLoggingTypeFormat),
    (⟨"builtin", "println"⟩, .SigLoggingTypeFormat),
    (⟨"fmt", "Print"⟩, .SigLoggingTypeFormat),
    (⟨"fmt", "Printf"⟩, .SigLoggingTypeFormat),
    (⟨"fmt", "Println"⟩, .SigLoggingTypeFormat),
    (⟨"log", "Print"⟩, .SigLoggingTypeFormat),
    (⟨"log", "Printf"⟩, .SigLoggingTypeFormat),
    (⟨"log", "Println"⟩, .SigLoggingTypeFormat),
    (⟨"log", "Panic"⟩, .SigLoggingTypeFormat),
    (⟨"log", "Panicf"⟩, .SigLoggingTypeFormat),
    (⟨"log", "Panicln"⟩, .SigLoggingTypeFormat),
    (⟨"log", "Fatal"⟩, .SigLoggingTypeFormat),
    (⟨"log", "Fatalf"⟩, .SigLoggingTypeFormat),
    (⟨"log", "Fatalln"⟩, .SigLoggingTypeFormat),
    (⟨"log/slog", "Debug"⟩, .SigLoggingTypeSlog),
    (⟨"log/slog", "Info"⟩, .SigLoggingTypeSlog),
    (⟨"log/slog", "Warn"⟩, .SigLoggingTypeSlog),
    (⟨"log/slog", "Error"⟩, .SigLoggingTypeSlog),
    (⟨"github.com/uber-go/zap", "Log"⟩, .SigLoggingTypeZap),
    (⟨"github.com/uber-go/zap", "Debug"⟩, .SigLoggingTypeZap),
    (⟨"github.com/uber-go/zap", "Info"⟩, .SigLoggingTypeZap),
    (⟨"github.com/uber-go/zap", "Warn"⟩, .SigLoggingTypeZap),
    (⟨"github.com/uber-go/zap", "Error"⟩, .SigLoggingTypeZap),
    (⟨"github.com/uber-go/zap", "DPanic"⟩, .SigLoggingTypeZap),
    (⟨"github.com/uber-go/zap", "Panic"⟩, .SigLoggingTypeZap),
    (⟨"github.com/uber-go/zap", "Fatal"⟩, .SigLoggingTypeZap),
    (⟨"github.com/rs/zerolog/log", "Msg"⟩, .SigLoggingTypeZap),
    (⟨"github.com/rs/zerolog/log", "Msgf"⟩, .SigLoggingTypeZap),
    (⟨"github.com/rs/zerolog/log", "Print"⟩, .SigLoggingTypeZap),
    (⟨"github.com/rs/zerolog", "Msg"⟩, .SigLoggingTypeZap),
    (⟨"github.com/rs/zerolog", "Msgf"⟩, .SigLoggingTypeZap),
    (⟨"github.com/sirkon/message", "Debug"⟩, .SigLoggingTypeFormat),
    (⟨"github.com/sirkon/message", "Debugf"⟩, .SigLoggingTypeFormat),
    (⟨"github.com/sirkon/message", "Info"⟩, .SigLoggingTypeFormat),
    (⟨"github.com/sirkon/message", "Infof"⟩, .SigLoggingTypeFormat),
    (⟨"github.com/sirkon/message", "Notice"⟩, .SigLoggingTypeFormat),
    (⟨"github.com/sirkon/message", "Noticef"⟩, .SigLoggingTypeFormat),
    (⟨"github.com/sirkon/message", "Warning"⟩, .SigLoggingTypeFormat),
    (⟨"github.com/sirkon/message", "Warningf"⟩, .SigLoggingTypeFormat),
    (⟨"github.com/sirkon/message", "Error"⟩, .SigLoggingTypeFormat),
    (⟨"github.com/sirkon/message", "Errorf"⟩, .SigLoggingTypeFormat),
    (⟨"github.com/sirkon/message", "Critical"⟩, .SigLoggingTypeFormat),
    (⟨"github.com/sirkon/message", "Criticalf"⟩, .SigLoggingTypeFormat),
    (⟨"github.com/sirkon/message", "Fatal"⟩, .SigLoggingTypeFormat),
    (⟨"github.com/sirkon/message", "Fatalf"⟩, .SigLoggingTypeFormat) ]

/-- `newKnownLoggingFuncs`: clone custom and `maps.Insert` all predefined
entries into it (src/funcs_logging.go). -/
def newKnownLoggingFuncs (custom : List (packagedFunc × SigLoggingType)) :
    List (packagedFunc × SigLoggingType) :=
  goMapInsertAll custom loggingPredefined

/-- The hard-coded default abandon table of `newKnownAbandonFuncs`
(src/unnamed/part_014). -/
def abandonPredefined : List (packagedFunc × SigAbandonType) :=
  [ (⟨"builtin", "panic"⟩, .SigAbandonTypeInvalid),
    (⟨"os", "Exit"⟩, .SigAbandonTypeInvalid),
    (⟨"testing", "Fatal"⟩, .SigAbandonTypeFormat),
    (⟨"testing", "Fatalf"⟩, .SigAbandonTypeFormat),
    (⟨"log", "Fatal"⟩, .SigAbandonTypeFormat),
    (⟨"log", "Fatalf"⟩, .SigAbandonTypeFormat),
    (⟨"log", "Fatalln"⟩, .SigAbandonTypeFormat),
    (⟨"log", "Panic"⟩, .SigAbandonTypeFormat),
    (⟨"log", "Panicf"⟩, .SigAbandonTypeFormat),
    (⟨"log", "Panicln"⟩, .SigAbandonTypeFormat),
    (⟨"github.com/uber-go/zap", "DPanic"⟩, .SigAbandonTypeZap),
    (⟨"github.com/uber-go/zap", "Panic"⟩, .SigAbandonTypeZap),
    (⟨"github.com/uber-go/zap", "Fatal"⟩, .SigAbandonTypeZap),
    (⟨"github.com/sirkon/message", "Fatal"⟩, .SigAbandonTypeFormat),
    (⟨"github.com/sirkon/message", "Fatalf"⟩, .SigAbandonTypeFormat),
    (⟨"github.com/sirkon/message", "Critical"⟩, .SigAbandonTypeFormat),
    (⟨"github.com/sirkon/message", "Criticalf"⟩, .SigAbandonTypeFormat) ]

/-- `newKnownAbandonFuncs`: clone custom and `maps.Insert` all predefined
entries into it (src/unnamed/part_014). -/
def newKnownAbandonFuncs (custom : List (packagedFunc × SigAbandonType)) :
    List (packagedFunc × SigAbandonType) :=
  goMapInsertAll custom abandonPredefined

theorem goMapGet_goMapSet_self {κ ν : Type} [DecidableEq κ]
    (m : List (κ × ν)) (k : κ) (v : ν) : goMapGet (goMapSet m k v) k = some v := by
  unfold goMapGet goMapSet
  have hnone : (m.filter (fun e => e.1 ≠ k)).find? (fun e => e.1 = k) = none := by
    apply List.find?_eq_none.mpr
    intro x hx
    have := List.of_mem_filter hx
    simpa using this
  rw [List.find?_append, hnone]
  simp [List.find?_cons]

theorem find?_filter_of_imp {α : Type} (l : List α) (p q : α → Bool)
    (h : ∀ x, p x = true → q x = true) : (l.filter q).find? p = l.find? p := by
  induction l with
  | nil => rfl
  | cons a tl ih =>
    by_cases hq : q a = true
    · rw [List.filter_cons, if_pos (by simpa using hq)]
      by_cases hp : p a = true
      · rw [List.find?_cons_of_pos _ hp, List.find?_cons_of_pos _ hp]
      · have hp' : p a = false := by
          cases hx : p a
          · rfl
          · exact absurd hx hp
        rw [List.find?_cons_of_neg _ (by simp [hp']),
          List.find?_cons_of_neg _ (by simp [hp']), ih]
    · have hp' : p a = false := by
        cases hx : p a
        · rfl
        · exact absurd (h a hx) hq
      rw [List.filter_cons, if_neg (by simpa using hq),
        List.find?_cons_of_neg _ (by simp [hp']), ih]

theorem goMapGet_goMapSet_ne {κ ν : Type} [DecidableEq κ]
    (m : List (κ × ν)) (k k' : κ) (v : ν) (hk : k' ≠ k) :
    goMapGet (goMapSet m k v) k' = goMapGet m k' := by
  unfold goMapGet goMapSet
  rw [List.find?_append]
  rw [find?_filter_of_imp m (fun e => e.1 = k') (fun e => e.1 ≠ k)
    (by
      intro x hx
      have hx' : x.1 = k' := by simpa using hx
      simp [hx', hk])]
  cases hx : m.find? (fun e => e.1 = k') with
  | some w => simp
  | none => simp [Ne.symm hk]

/-- After `maps.Insert(dst, maps.All(src))`, a key found in `src`
(at its last occurrence) maps to the `src` value, and a key absent from
`src` keeps its `dst` binding. -/
theorem goMapGet_goMapInsertAll {κ ν : Type} [DecidableEq κ]
    (dst src : List (κ × ν)) (k : κ) :
    goMapGet (goMapInsertAll dst src) k =
      ((src.reverse.find? (fun e => e.1 = k)).map (·.2)).orElse
        (fun _ => goMapGet dst k) := by
  induction src generalizing dst with
  | nil => simp [goMapInsertAll, Option.orElse]
  | cons e tl ih =>
    have hstep : goMapGet (goMapInsertAll dst (e :: tl)) k =
        goMapGet (goMapInsertAll (goMapSet dst e.1 e.2) tl) k := rfl
    rw [hstep, ih (goMapSet dst e.1 e.2), List.reverse_cons, List.find?_append]
    cases hx : tl.reverse.find? (fun x => x.1 = k) with
    | some w => rfl
    | none =>
      by_cases he : e.1 = k
      · subst he
        simp [goMapGet_goMapSet_self, Option.orElse]
      · simp [he, Option.orElse,
          goMapGet_goMapSet_ne dst e.1 k e.2 (fun hx => he hx.symm)]

namespace tracing

/-- `cir.Reference` (src/internal/cir/expr_var.go): `(Package, Type, Name)`
triple.  The `Type` field is renamed `typ` (Lean keyword). -/
structure Reference where
  Package : String
  typ : String
  Name : String
deriving DecidableEq, Repr

/-- Status results of `SetTakenCare`.  `Facts` (errors_state_facts.go) and
`StateErrorFacts` (state_error_facts.go) declare identical status constants;
they are modelled once. -/
inductive FactSetTakenCareStatus where
  | OK
  | AlreadyReturned
  | AlreadyLogged
deriving DecidableEq, Repr

/-- Status results of `SetClass`, shared by both identical source copies. -/
inductive FactSetClassStatus where
  | OK
  | Duplicate
  | DuplicateUpgrade
  | DuplicateDowngrade
  | ExactImpossible
deriving DecidableEq, Repr

/-- The per-error-variable fact record.  `Facts`
(src/internal/tracing/errors_state_facts.go) and `StateErrorFacts`
(src/internal/tracing/state_error_facts.go) are field-for-field identical
(`notNil *bool`, `takenCare *bool`, `wrapped bool`,
`classOf map[cir.Reference]bool`); they are modelled by this one structure.
`classOf` is modelled by its map content (in Go the zero value is a nil map;
writing to it panics at runtime, a separate concern from the map logic). -/
structure Facts where
  notNil : Option Bool
  takenCare : Option Bool
  wrapped : Bool
  classOf : List (Reference × Bool)
deriving DecidableEq, Repr

/-- `SetTakenCare` from both errors_state_facts.go and state_error_facts.go:
if `takenCare` is already set, report already-returned/already-logged and do
not modify it; otherwise store `isReturned` and report OK. -/
def Facts.SetTakenCare (f : Facts) (isReturned : Bool) :
    FactSetTakenCareStatus × Facts :=
  match f.takenCare with
  | some c =>
    if c then (.AlreadyReturned, f) else (.AlreadyLogged, f)
  | none => (.OK, { f with takenCare := some isReturned })

/-- `SetClass` from both errors_state_facts.go and state_error_facts.go:
for a class not yet in `classOf`, refuse an exact entry when any other exact
entry exists (exact-impossible), otherwise record it; for a class already
present report duplicate/upgrade/downgrade without modifying the map. -/
def Facts.SetClass (f : Facts) (class_ : Reference) (exact : Bool) :
    FactSetClassStatus × Facts :=
  match goMapGet f.classOf class_ with
  | none =>
    if exact && f.classOf.any (fun e => e.2) then
      (.ExactImpossible, f)
    else
      (.OK, { f with classOf := goMapSet f.classOf class_ exact })
  | some v =>
    if !v && exact then (.DuplicateUpgrade, f)
    else if v && !exact then (.DuplicateDowngrade, f)
    else (.Duplicate, f)

/-- Apply a sequence of `SetTakenCare` calls, collecting the statuses. -/
def Facts.runTakenCare (f : Facts) :
    List Bool → List FactSetTakenCareStatus × Facts
  | [] => ([], f)
  | b :: bs =>
    let r := f.SetTakenCare b
    let rest := r.2.runTakenCare bs
    (r.1 :: rest.1, rest.2)

/-- Apply a sequence of `SetClass` calls, keeping only the final record. -/
def Facts.runSetClass (f : Facts) : List (Reference × Bool) → Facts
  | [] => f
  | c :: cs => ((f.SetClass c.1 c.2).2).runSetClass cs

/-- Number of entries of `classOf` with `exact = true`. -/
def countExact (m : List (Reference × Bool)) : Nat :=
  (m.filter (fun e => e.2)).length

/-- `State` from src/internal/tracing/state.go.  The two Go maps are wrapped
in `Option`: `none` models a nil map (the zero value `NewState` leaves),
`some` an allocated one.  The parallel `tmp.State` of src/unnamed/part_009
has the same nil-map constructor and `Var` body (and no `Clone`). -/
structure State where
  errors : Option (List (String × Facts))
  exits : Option (List (Int × Facts))
deriving Repr

/-- `NewState`: `&State{}` — both maps are left as nil maps. -/
def NewState : State := { errors := none, exits := none }

/-- `State.Var`: look the name up (reading a nil map yields no entry); on a
miss, create a fresh zero record and assign it into the map — an assignment
that panics (`.error ()`) when the map is nil. -/
def State.Var (s : State) (name : String) : Except Unit (Facts × State) :=
  let cur : Option Facts :=
    match s.errors with
    | none => none
    | some m => goMapGet m name
  match cur with
  | some v => .ok (v, s)
  | none =>
    let v : Facts := { notNil := none, takenCare := none, wrapped := false, classOf := [] }
    match s.errors with
    | none => .error ()
    | some m => .ok (v, { s with errors := some (goMapSet m name v) })

/-- `State.Clone`: allocates both maps (`make`) and copies every record, so
the clone's maps are allocated even when the source maps are nil. -/
def State.Clone (s : State) : State :=
  { errors := some (s.errors.getD []), exits := some (s.exits.getD []) }

/-- A slot of the span index: `contextNodeSpan`
(src/internal/tracing/context_span.go) — a `[start, end]` token span, the CIR
node attached to it (modelled as an opaque identifier), and the lazily
allocated children tree.  The external RB-tree (`github.com/sirkon/rbtree`,
an external collaborator, spec §4.3: a balanced BST under the span ordering)
is modelled as the in-order list of its elements; a nil and an empty children
tree behave identically for every operation modelled here.  The `end` field
is renamed `stop` (Lean keyword). -/
inductive SpanNode : Type where
  | mk (start stop : Int) (node : Nat) (children : List SpanNode)

def SpanNode.start : SpanNode → Int
  | .mk a _ _ _ => a

def SpanNode.stop : SpanNode → Int
  | .mk _ b _ _ => b

def SpanNode.node : SpanNode → Nat
  | .mk _ _ n _ => n

def SpanNode.children : SpanNode → List SpanNode
  | .mk _ _ _ cs => cs

/-- `Cmp` of contextNodeSpan: −1 strictly before, 1 strictly after,
0 on any overlap. -/
def cmpSpan (a b : SpanNode) : Int :=
  if a.stop < b.start then -1
  else if a.start > b.stop then 1
  else 0

/-- `contains`: `a.start <= b.start && a.end >= b.end`. -/
def spanContains (a b : SpanNode) : Bool :=
  decide (a.start ≤ b.start) && decide (a.stop ≥ b.stop)

/-- BST search of the level for the first element comparing equal (0) to the
probe; with pairwise-disjoint elements this is the unique overlapping one.
Models `rbtree.Tree.Search`/the lookup half of `InsertReturn`. -/
def levelFind (t : List SpanNode) (s : SpanNode) : Option SpanNode :=
  t.find? (fun r => cmpSpan s r == 0)

/-- Insert a span disjoint from every element at its ordered position
(the insertion half of `rbtree.Tree.InsertReturn`). -/
def insertDisjoint : List SpanNode → SpanNode → List SpanNode
  | [], s => [s]
  | x :: xs, s => if s.stop < x.start then s :: x :: xs else x :: insertDisjoint xs s

/-- Replace the first element matched by `p` (the in-place `*r = ...` write
through the handle the tree returned). -/
def replaceFirst : List SpanNode → (SpanNode → Bool) → SpanNode → List SpanNode
  | [], _, _ => []
  | x :: xs, p, y => if p x then y :: xs else x :: replaceFirst xs p y

theorem SpanNode.sizeOf_children_lt (s : SpanNode) : sizeOf s.children < sizeOf s := by
  cases s with
  | mk a b n cs => simp [SpanNode.children]

/-- `attachInto` (src/internal/tracing/context_span.go): insert span `s` into
tree level `t`.  No overlap: new sibling.  `s` contains the overlapping `r`:
the slot of `r` becomes `s` (keeping `s`'s children) and the old `r` is
re-attached into that children tree.  `r` contains `s`: attach `s` into
`r`'s children.  Partial overlap: panic (`none`). -/
def attachInto (t : List SpanNode) (s : SpanNode) : Option (List SpanNode) :=
  match h : levelFind t s with
  | none => some (insertDisjoint t s)
  | some r =>
    if spanContains s r then
      match attachInto s.children r with
      | none => none
      | some cs => some (replaceFirst t (fun x => cmpSpan s x == 0) (.mk s.start s.stop s.node cs))
    else if spanContains r s then
      match attachInto r.children s with
      | none => none
      | some cs => some (replaceFirst t (fun x => cmpSpan s x == 0) (.mk r.start r.stop r.node cs))
    else
      none
termination_by sizeOf t + sizeOf s
decreasing_by
  · have hm : r ∈ t := List.mem_of_find?_eq_some h
    have h1 : sizeOf r < sizeOf t := List.sizeOf_lt_of_mem hm
    have h2 := SpanNode.sizeOf_children_lt s
    omega
  · have hm : r ∈ t := List.mem_of_find?_eq_some h
    have h1 : sizeOf r < sizeOf t := List.sizeOf_lt_of_mem hm
    have h2 := SpanNode.sizeOf_children_lt r
    omega

/-- `descendSearch`: descend into the child whose span covers `pos` while one
exists; the probe `[pos, pos]` overlaps a child `c` exactly when
`c.start ≤ pos ≤ c.end`. -/
def descendSearch (n : SpanNode) (pos : Int) : Nat :=
  match h : n.children.find? (fun c => decide (c.start ≤ pos) && decide (pos ≤ c.stop)) with
  | none => n.node
  | some c => descendSearch c pos
termination_by sizeOf n
decreasing_by
  have hm : c ∈ n.children := List.mem_of_find?_eq_some h
  have h1 : sizeOf c < sizeOf n.children := List.sizeOf_lt_of_mem hm
  have h2 := SpanNode.sizeOf_children_lt n
  omega

/-- `Context.GetByPos` (src/unnamed/part_003): search the top level with the
probe `[pos, pos]`, then `descendSearch` into the found slot. -/
def GetByPos (t : List SpanNode) (pos : Int) : Option Nat :=
  match t.find? (fun c => decide (c.start ≤ pos) && decide (pos ≤ c.stop)) with
  | none => none
  | some r => some (descendSearch r pos)

/-- `Context.Add` (src/unnamed/part_003): wrap the node in a fresh span slot
(children nil) and attach it. -/
def contextAdd (t : List SpanNode) (start stop : Int) (node : Nat) :
    Option (List SpanNode) :=
  attachInto t (.mk start stop node [])

/-- Build a span index by `Add`-ing the listed `(start, end, node)` spans in
order. -/
def buildIndex (spans : List (Int × Int × Nat)) : Option (List SpanNode) :=
  spans.foldl (fun acc s => acc.bind (fun t => contextAdd t s.1 s.2.1 s.2.2)) (some [])

/-- Modelled from the spec: "`find(pos)` returns the unique innermost span
containing `pos` or none" — the input span covering `pos` that every other
covering input span contains.  Stated over the insertion list, independently
of the tree. -/
def innermostNode (spans : List (Int × Int × Nat)) (pos : Int) : Option Nat :=
  let covering := spans.filter (fun s => decide (s.1 ≤ pos) && decide (pos ≤ s.2.1))
  (covering.find? (fun s =>
    covering.all (fun r => decide (r.1 ≤ s.1) && decide (s.2.1 ≤ r.2.1)))).map (fun s => s.2.2)

end tracing

namespace cir

/-- Go string utilities, modelled over the character list.
`strings.TrimSpace`: strip leading and trailing whitespace. -/
def goTrimSpace (s : String) : String :=
  ⟨((s.toList.dropWhile Char.isWhitespace).reverse.dropWhile Char.isWhitespace).reverse⟩

/-- `strings.HasSuffix`. -/
def goHasSuffix (s suf : String) : Bool :=
  suf.toList.isSuffixOf s.toList

/-- `strings.TrimSuffix`: remove one trailing copy of `suf` when present. -/
def goTrimSuffix (s suf : String) : String :=
  if goHasSuffix s suf then ⟨s.toList.take (s.toList.length - suf.toList.length)⟩ else s

/-- `strings.HasPrefix`. -/
def goHasPrefix (s pre : String) : Bool :=
  pre.toList.isPrefixOf s.toList

/-- Sublist-of-consecutive-elements test (Go `strings.Contains` backend). -/
def listIsInfixOf (needle : List Char) : List Char → Bool
  | [] => needle.isPrefixOf []
  | c :: rest => needle.isPrefixOf (c :: rest) || listIsInfixOf needle rest

/-- `strings.Contains`. -/
def goContains (s sub : String) : Bool :=
  listIsInfixOf sub.toList s.toList

/-- `strings.Trim(s, cutset)`: strip characters of the cutset from both
ends. -/
def goTrimChars (s : String) (cutset : List Char) : String :=
  ⟨((s.toList.dropWhile (fun c => cutset.contains c)).reverse.dropWhile
      (fun c => cutset.contains c)).reverse⟩

/-- `normalizeWrapMsg` (src/unnamed/part_008): trim surrounding whitespace,
then strip a trailing `": %w"`, then `" %w"`, then `"(%w)"`. -/
def normalizeWrapMsg (m : String) : String :=
  let m1 := goTrimSpace m
  let m2 := goTrimSuffix m1 ": %w"
  let m3 := goTrimSuffix m2 " %w"
  goTrimSuffix m3 "(%w)"

/-- The syntactic expression fragment (`go/ast` subset) the translator
inspects.  `typeAssert` carries its asserted type rendered as text. -/
inductive GoExpr : Type where
  | ident (name : String)
  | basicLit (value : String)
  | call (fn : GoExpr) (args : List GoExpr)
  | selector (x : GoExpr) (sel : String)
  | typeAssert (x : GoExpr) (typ : String)
  | other (text : String)
deriving Repr

/-- Rendering of an expression to source text (the `go/printer` output used
by `exprString`), modelled structurally on the fragment. -/
def exprRender : GoExpr → String
  | .ident n => n
  | .basicLit v => v
  | .call fn args =>
    exprRender fn ++ "(" ++
      String.intercalate ", " (args.attach.map (fun a => exprRender a.1)) ++ ")"
  | .selector x sel => exprRender x ++ "." ++ sel
  | .typeAssert x typ => exprRender x ++ ".(" ++ typ ++ ")"
  | .other text => text
termination_by e => sizeOf e
decreasing_by
  all_goals simp_wf
  all_goals first
    | omega
    | (have hmem := List.sizeOf_lt_of_mem a.2; omega)

/-- `exprString`: empty for a nil expression, printer output otherwise. -/
def exprString : Option GoExpr → String
  | none => ""
  | some e => exprRender e

/-- `isNilLiteral` (src/unnamed/part_008): an identifier named `nil`. -/
def isNilLiteral : GoExpr → Bool
  | .ident n => n == "nil"
  | _ => false

/-- `Pos` of the CIR model (file, line, column). -/
structure Pos where
  File : String
  Line : Int
  Col : Int
deriving DecidableEq, Repr

/-- The `AssignSource` ADT of the CIR model (src/unnamed/part_008):
Ctor / Call / Sentinel / Alias / TypeAssert. -/
inductive AssignSource : Type where
  | Ctor (Msg Via : String)
  | Call (Callee : String) (Local : Bool)
  | Sentinel (Symbol : String) (Local : Bool)
  | Alias (Target : String)
  | TypeAssert (Expr : String)
deriving DecidableEq, Repr

def AssignSource.isAlias : AssignSource → Bool
  | .Alias _ => true
  | _ => false

/-- CIR nodes emitted by the translator paths modelled here (`onReturn`
emits only Assign/Wrap/Return; `Log` is carried for the abandon path). -/
inductive CIRNode : Type where
  | Assign (pos : Pos) (Name : String) (Src : AssignSource)
  | Wrap (pos : Pos) (Name Msg Via : String)
  | Return (pos : Pos) (Name : String)
  | Log (pos : Pos) (Vars : List String) (Level Via : String)
deriving DecidableEq, Repr

def CIRNode.isAssign : CIRNode → Bool
  | .Assign _ _ _ => true
  | _ => false

/-- `Ref` of the translator config: `{Package, Name}`. -/
structure Ref where
  Package : String
  Name : String
deriving DecidableEq, Repr

/-- `Config` of the translator (loggers and checkers are not consumed by the
modelled return path but kept for shape). -/
structure Config where
  Loggers : List (Ref × String)
  Checkers : List (Ref × Ref)
  Constructors : List Ref
deriving Repr

/-- `go/types` package object facts the translator queries (`Pkg().Path()`,
`Pkg().Name()`). -/
structure PkgInfo where
  path : String
  name : String
deriving DecidableEq, Repr

/-- Facts about a resolved object (`info.Uses`): its declaring package, and
whether its parent scope is the package scope. -/
structure ObjInfo where
  pkg : Option PkgInfo
  parentIsPkgScope : Bool
deriving DecidableEq, Repr

/-- The translator (src/unnamed/part_008).  The `go/types` type-checker
results (`info.TypeOf`/`AssignableTo`, `info.Uses`, `info.Selections`) are
external inputs and appear as oracle functions. -/
structure Translator where
  cfg : Config
  pkgName : String
  modulePath : String
  typeAssignableToError : GoExpr → Bool
  assertTypeIsError : String → Bool
  uses : GoExpr → Option ObjInfo
  selections : GoExpr → Option (String × Option PkgInfo)

/-- Translator-side `state`: error-ish names in scope, named error returns
from the signature, function name.  Go map iteration over `namedRet` is
modelled by list order. -/
structure TranslatorState where
  errVars : List String
  namedRet : List String
  funcName : String
deriving Repr

/-- `isPkgLocal`: without a module path compare package names; otherwise a
dotless (stdlib) path is foreign and locality is module-path prefixing. -/
def Translator.isPkgLocal (t : Translator) : Option PkgInfo → Bool
  | none => false
  | some p =>
    if t.modulePath = "" then p.name == t.pkgName
    else if !(goContains p.path ".") then false
    else goHasPrefix p.path t.modulePath

/-- `calleePkgName`: `(pkg, name)` for `pkg.Name` selectors and bare
identifiers, `("", rendered)` otherwise. -/
def Translator.calleePkgName (_ : Translator) : GoExpr → String × String
  | .selector (.ident x) sel => (x, sel)
  | .ident n => ("", n)
  | e => ("", exprRender e)

def joinPkgName (pkg name : String) : String :=
  if pkg = "" then name else pkg ++ "." ++ name

/-- `firstStringArg`: the first argument's literal value with backquotes and
double quotes trimmed, empty otherwise. -/
def firstStringArg : List GoExpr → String
  | [] => ""
  | a :: _ =>
    match a with
    | .basicLit v => goTrimChars v ['`', '"']
    | _ => ""

/-- `classifyConstructorOrWrap`: `fmt.Errorf` is a wrap when its format
contains `%w` and a constructor otherwise; other callees are constructors
exactly when registered in `cfg.Constructors`.  Returns
`(via, msg, isCtor, isWrap)`. -/
def Translator.classifyConstructorOrWrap (t : Translator) (fn : GoExpr)
    (args : List GoExpr) : String × String × Bool × Bool :=
  let pn := t.calleePkgName fn
  let via := joinPkgName pn.1 pn.2
  if pn.1 = "fmt" && pn.2 = "Errorf" then
    let m := firstStringArg args
    if goContains m "%w" then (via, normalizeWrapMsg m, false, true)
    else (via, m, true, false)
  else if t.cfg.Constructors.any (fun c => c.Package = pn.1 && c.Name = pn.2) then
    (via, firstStringArg args, true, false)
  else
    (via, "", false, false)

def elideParams (n : Nat) : String :=
  if n = 0 then "()" else "(…)"

/-- `shortCall`: rendered callee with elided parameters plus a locality
string, resolved through `info.Uses`/`info.Selections`. -/
def Translator.shortCall (t : Translator) (fn : GoExpr) (nargs : Nat) :
    String × String :=
  match fn with
  | .selector (.ident x) sel =>
    let name := x ++ "." ++ sel ++ elideParams nargs
    (match t.uses (.selector (.ident x) sel) with
     | some obj =>
       match obj.pkg with
       | some p => if t.isPkgLocal (some p) then (name, "local call") else (name, "foreign call")
       | none => if x ≠ t.pkgName then (name, "foreign call") else (name, "local call")
     | none => if x ≠ t.pkgName then (name, "foreign call") else (name, "local call"))
  | .selector x sel =>
    (match t.selections (.selector x sel) with
     | some (objName, objPkg) =>
       let name := exprRender x ++ "." ++ objName ++ elideParams nargs
       if objPkg.isSome && t.isPkgLocal objPkg then (name, "local call")
       else (name, "foreign call")
     | none => (exprRender (.selector x sel) ++ elideParams nargs, "expr"))
  | .ident n => (n ++ elideParams nargs, "local call")
  | e => (exprRender e ++ elideParams nargs, "expr")

/-- `assignSourceForCall`. -/
def Translator.assignSourceForCall (t : Translator) (fn : GoExpr)
    (args : List GoExpr) : AssignSource :=
  let sc := t.shortCall fn args.length
  .Call sc.1 (sc.2 == "local call")

def Translator.selectorText (_ : Translator) (x : GoExpr) (sel : String) :
    String × String :=
  match x with
  | .ident n => (n, n ++ "." ++ sel)
  | _ => ("", exprRender (.selector x sel))

/-- `classifyAssignSource`: calls, error type assertions, sentinel
selectors, sentinel or alias identifiers, and the textual alias fallback
(the empty text for a nil expression). -/
def Translator.classifyAssignSource (t : Translator) :
    Option GoExpr → AssignSource
  | some (.call fn args) => t.assignSourceForCall fn args
  | some (.typeAssert x typ) =>
    if t.assertTypeIsError typ then .TypeAssert (exprRender (.typeAssert x typ))
    else .Alias (exprRender (.typeAssert x typ))
  | some (.selector x sel) =>
    let st := t.selectorText x sel
    if t.typeAssignableToError (.selector x sel) then
      match t.uses (.selector x sel) with
      | some obj =>
        (match obj.pkg with
         | some p => .Sentinel st.2 (t.isPkgLocal (some p))
         | none =>
           if st.1 ≠ "" && st.1 ≠ t.pkgName then .Sentinel st.2 false
           else .Alias (exprRender (.selector x sel)))
      | none =>
        if st.1 ≠ "" && st.1 ≠ t.pkgName then .Sentinel st.2 false
        else .Alias (exprRender (.selector x sel))
    else .Alias (exprRender (.selector x sel))
  | some (.ident n) =>
    if t.typeAssignableToError (.ident n) then
      match t.uses (.ident n) with
      | some obj =>
        if obj.pkg.isSome && obj.parentIsPkgScope then
          .Sentinel n (t.isPkgLocal obj.pkg)
        else .Alias n
      | none => .Alias n
    else .Alias (exprRender (.ident n))
  | some e => .Alias (exprRender e)
  | none => .Alias (exprString none)

/-- `exprIsErrorAssert`: the asserted type implements `error`. -/
def Translator.exprIsErrorAssert (t : Translator) : GoExpr → Bool
  | .typeAssert _ typ => t.assertTypeIsError typ
  | _ => false

/-- `findNamedErrorReturn`: the first named error return of the signature,
empty when none. -/
def Translator.findNamedErrorReturn (_ : Translator) (st : TranslatorState) :
    String :=
  match st.namedRet with
  | [] => ""
  | n :: _ => n

/-- `onReturn` (src/unnamed/part_008): translate a return statement given
the positions of its result expressions; only the last result is
inspected. -/
def Translator.onReturn (t : Translator) (st : TranslatorState) (pos : Pos)
    (results : List GoExpr) : List CIRNode :=
  match results.getLast? with
  | none => []
  | some res =>
    if isNilLiteral res then []
    else
      match res with
      | .call fn args =>
        let c := t.classifyConstructorOrWrap fn args
        if c.2.2.2 then
          let name0 := t.findNamedErrorReturn st
          let name := if name0 = "" then "@err" else name0
          let underlying : Option GoExpr :=
            if args.length > 1 then args.getLast? else none
          let src := t.classifyAssignSource underlying
          (if src.isAlias then [] else [CIRNode.Assign pos name src]) ++
            [CIRNode.Wrap pos name c.2.1 "fmt.Errorf", CIRNode.Return pos name]
        else if c.2.2.1 then
          let name0 := t.findNamedErrorReturn st
          let name := if name0 = "" then "@err" else name0
          [CIRNode.Assign pos name (.Ctor c.2.1 c.1), CIRNode.Return pos name]
        else []
      | .typeAssert x typ =>
        if t.exprIsErrorAssert (.typeAssert x typ) then
          let name0 := t.findNamedErrorReturn st
          let name := if name0 = "" then "@err" else name0
          [CIRNode.Assign pos name (.TypeAssert (exprRender (.typeAssert x typ))),
            CIRNode.Return pos name]
        else []
      | .ident n =>
        let name0 := t.findNamedErrorReturn st
        let name := if name0 = "" then "@err" else name0
        let src := t.classifyAssignSource (some (.ident n))
        [CIRNode.Assign pos name src, CIRNode.Return pos name]
      | .selector x sel =>
        let name0 := t.findNamedErrorReturn st
        let name := if name0 = "" then "@err" else name0
        let src := t.classifyAssignSource (some (.selector x sel))
        [CIRNode.Assign pos name src, CIRNode.Return pos name]
      | _ => []

end cir

namespace cerrules

/-- `Rule.String` of the full rule catalog (src/unnamed/part_002, first
copy).  `Rule` is an int; the catalog constants are `iota` values 1..15
(`CER000NoSilentDrop = 1`, …, `CER150NoLogAndReturn = 15`); the default
branch renders `fmt.Sprintf("rule-unknown(%d)", r)`. -/
def RuleString (r : Int) : String :=
  if r = 1 then "CER000: NoSilentDrop"
  else if r = 2 then "CER010: AnnotateExternal"
  else if r = 3 then "CER020: SingleLocalPassthrough"
  else if r = 4 then "CER030: MultiReturnMustAnnotate"
  else if r = 5 then "CER040: AnnotationRequiredForExternalAndMultiLocal"
  else if r = 6 then "CER050: HandleInNonErrorFunc"
  else if r = 7 then "CER060: NoShadowingOrAliasing"
  else if r = 8 then "CER065: FixBeforeUse"
  else if r = 9 then "CER070: ReturnInDefinedErrorState"
  else if r = 10 then "CER080: NoErrorDelegation"
  else if r = 11 then "CER090: ErrorMustBeLastReturnValue"
  else if r = 12 then "CER100–CER145: TextAndStyleRules"
  else if r = 13 then "CER0101: AnnotationFormatMustBeLiteral"
  else if r = 14 then "CER102: AnnotationFormatMustEndWithW"
  else if r = 15 then "CER150: NoLogAndReturn"
  else "rule-unknown(" ++ toString r ++ ")"

/-- `Rule.String` of the duplicated reduced catalog (src/unnamed/part_002,
second copy): `iota` values 1..10 ending at `CER150NoLogAndReturn = 10`; its
default branch renders `fmt.Sprintf("unknown-rule(%d)", r)`. -/
def RuleStringDup (r : Int) : String :=
  if r = 1 then "CER000: NoSilentDrop"
  else if r = 2 then "CER010: AnnotateExternal"
  else if r = 3 then "CER020: SingleLocalPassthrough"
  else if r = 4 then "CER030: MultiReturnMustAnnotate"
  else if r = 5 then "CER040: AnnotationRequiredForExternalAndMultiLocal"
  else if r = 6 then "CER050: HandleInNonErrorFunc"
  else if r = 7 then "CER060: NoShadowingOrAliasing"
  else if r = 8 then "CER065: FixBeforeUse"
  else if r = 9 then "CER100–CER145: TextAndStyleRules"
  else if r = 10 then "CER150: NoLogAndReturn"
  else "unknown-rule(" ++ toString r ++ ")"

/-- Modelled from the spec: a string "of the form `CER<nnn>: <Name>`" —
`CER`, one or more digits, `": "`, and a nonempty name. -/
def isCanonicalCode (s : String) : Bool :=
  match s.toList with
  | 'C' :: 'E' :: 'R' :: rest =>
    let digits := rest.takeWhile Char.isDigit
    let rem := rest.dropWhile Char.isDigit
    decide (digits ≠ []) &&
      (match rem with
       | ':' :: ' ' :: name => decide (name ≠ [])
       | _ => false)
  | _ => false

end cerrules

/-! ## Shared lemmas -/

theorem find?_reverse_of_nodup_keys {κ ν : Type} [DecidableEq κ]
    (l : List (κ × ν)) (k : κ) (h : (l.map Prod.fst).Nodup) :
    l.reverse.find? (fun e => e.1 = k) = l.find? (fun e => e.1 = k) := by
  induction l with
  | nil => rfl
  | cons e tl ih =>
    rw [List.map_cons, List.nodup_cons] at h
    obtain ⟨hnot, hnodup⟩ := h
    rw [List.reverse_cons, List.find?_append, ih hnodup]
    by_cases he : e.1 = k
    · have htl : tl.find? (fun x => x.1 = k) = none := by
        apply List.find?_eq_none.mpr
        intro x hx hpx
        apply hnot
        have hxk : x.1 = k := by simpa using hpx
        rw [← he] at hxk
        exact hxk ▸ List.mem_map_of_mem Prod.fst hx
      simp [htl, List.find?_cons, he, Option.or]
    · cases hx : tl.find? (fun x => x.1 = k) with
      | some w => simp [hx, List.find?_cons, he, Option.or]
      | none => simp [hx, List.find?_cons, he, Option.or]

theorem goMapGet_insertAll_of_nodup {κ ν : Type} [DecidableEq κ]
    (dst src : List (κ × ν)) (k : κ) (h : (src.map Prod.fst).Nodup) :
    goMapGet (goMapInsertAll dst src) k =
      (goMapGet src k).orElse (fun _ => goMapGet dst k) := by
  rw [goMapGet_goMapInsertAll, goMapGet]
  rw [find?_reverse_of_nodup_keys src k h]
  rfl

/-! ## Claim theorems -/

/-- A custom wrapper table clashing with the predefined one on
`fmt.Errorf`. -/
def customWrapCex : List (packagedFunc × SigWrapType) :=
  [(⟨"fmt", "Errorf"⟩, .SigWrapTypeWrap)]

/-- C1 counterexample: the user entry maps `fmt.Errorf` to the Wrap
signature while the default table maps it to Errorf; the merged registry
yields the default's value, not the user's. -/
theorem newKnownTables_user_override_loses :
    goMapGet customWrapCex ⟨"fmt", "Errorf"⟩ = some .SigWrapTypeWrap ∧
    goMapGet errWrapPredefined ⟨"fmt", "Errorf"⟩ = some .SigWrapTypeErrorf ∧
    goMapGet (newKnownErrWrapChecker customWrapCex) ⟨"fmt", "Errorf"⟩ =
      some .SigWrapTypeErrorf := by
  refine ⟨rfl, by decide, by decide⟩

/-- C1 (amended): merging the hard-coded default tables into the user map
is default-wins — for a key in the default table the merged registry holds
the default's value, and only keys absent from it keep the user's value;
this holds for the wrapper, logging and abandon registries alike. -/
theorem newKnownTables_defaults_win :
    (∀ (custom : List (packagedFunc × SigWrapType)) k v,
      goMapGet errWrapPredefined k = some v →
      goMapGet (newKnownErrWrapChecker custom) k = some v) ∧
    (∀ (custom : List (packagedFunc × SigWrapType)) k,
      goMapGet errWrapPredefined k = none →
      goMapGet (newKnownErrWrapChecker custom) k = goMapGet custom k) ∧
    (∀ (custom : List (packagedFunc × SigLoggingType)) k v,
      goMapGet loggingPredefined k = some v →
      goMapGet (newKnownLoggingFuncs custom) k = some v) ∧
    (∀ (custom : List (packagedFunc × SigLoggingType)) k,
      goMapGet loggingPredefined k = none →
      goMapGet (newKnownLoggingFuncs custom) k = goMapGet custom k) ∧
    (∀ (custom : List (packagedFunc × SigAbandonType)) k v,
      goMapGet abandonPredefined k = some v →
      goMapGet (newKnownAbandonFuncs custom) k = some v) ∧
    (∀ (custom : List (packagedFunc × SigAbandonType)) k,
      goMapGet abandonPredefined k = none →
      goMapGet (newKnownAbandonFuncs custom) k = goMapGet custom k) := by
  refine ⟨?_, ?_, ?_, ?_, ?_, ?_⟩ <;> intro custom k
  · intro v hv
    rw [newKnownErrWrapChecker, goMapGet_insertAll_of_nodup _ _ _ (by decide), hv]
    rfl
  · intro hv
    rw [newKnownErrWrapChecker, goMapGet_insertAll_of_nodup _ _ _ (by decide), hv]
    rfl
  · intro v hv
    rw [newKnownLoggingFuncs, goMapGet_insertAll_of_nodup _ _ _ (by decide), hv]
    rfl
  · intro hv
    rw [newKnownLoggingFuncs, goMapGet_insertAll_of_nodup _ _ _ (by decide), hv]
    rfl
  · intro v hv
    rw [newKnownAbandonFuncs, goMapGet_insertAll_of_nodup _ _ _ (by decide), hv]
    rfl
  · intro hv
    rw [newKnownAbandonFuncs, goMapGet_insertAll_of_nodup _ _ _ (by decide), hv]
    rfl

/-- Witness for the default-wins merge: instantiations of each conjunct at
concrete keys. -/
theorem newKnownTables_defaults_win_witness :
    goMapGet (newKnownErrWrapChecker customWrapCex) ⟨"fmt", "Errorf"⟩ =
      some .SigWrapTypeErrorf ∧
    goMapGet (newKnownErrWrapChecker customWrapCex) ⟨"zzz", "F"⟩ =
      goMapGet customWrapCex ⟨"zzz", "F"⟩ ∧
    goMapGet (newKnownLoggingFuncs []) ⟨"fmt", "Println"⟩ =
      some .SigLoggingTypeFormat ∧
    goMapGet (newKnownLoggingFuncs []) ⟨"zzz", "F"⟩ =
      goMapGet ([] : List (packagedFunc × SigLoggingType)) ⟨"zzz", "F"⟩ ∧
    goMapGet (newKnownAbandonFuncs []) ⟨"os", "Exit"⟩ =
      some .SigAbandonTypeInvalid ∧
    goMapGet (newKnownAbandonFuncs []) ⟨"zzz", "F"⟩ =
      goMapGet ([] : List (packagedFunc × SigAbandonType)) ⟨"zzz", "F"⟩ :=
  ⟨newKnownTables_defaults_win.1 customWrapCex _ _ (by decide),
   newKnownTables_defaults_win.2.1 customWrapCex _ (by decide),
   newKnownTables_defaults_win.2.2.1 [] _ _ (by decide),
   newKnownTables_defaults_win.2.2.2.1 [] _ (by decide),
   newKnownTables_defaults_win.2.2.2.2.1 [] _ _ (by decide),
   newKnownTables_defaults_win.2.2.2.2.2 [] _ (by decide)⟩

namespace tracing

theorem runTakenCare_of_set (f : Facts) (c : Bool) (h : f.takenCare = some c)
    (bs : List Bool) :
    f.runTakenCare bs =
      (bs.map (fun _ => if c then FactSetTakenCareStatus.AlreadyReturned
        else FactSetTakenCareStatus.AlreadyLogged), f) := by
  induction bs with
  | nil => simp [Facts.runTakenCare]
  | cons b bs ih =>
    have hset : f.SetTakenCare b =
        (if c then FactSetTakenCareStatus.AlreadyReturned
          else FactSetTakenCareStatus.AlreadyLogged, f) := by
      simp [Facts.SetTakenCare, h]
      cases c <;> simp
    simp [Facts.runTakenCare, hset, ih]

/-- C3: from an unset `taken_care`, the first `SetTakenCare` stores
logged/returned and reports OK, and every later call of the sequence leaves
the stored status unchanged and reports already-returned (when it was
returned) or already-logged (when it was logged). -/
theorem setTakenCare_forward_only (f : Facts) (b : Bool) (bs : List Bool)
    (h : f.takenCare = none) :
    (f.runTakenCare (b :: bs)).1 =
      FactSetTakenCareStatus.OK ::
        bs.map (fun _ => if b then FactSetTakenCareStatus.AlreadyReturned
          else FactSetTakenCareStatus.AlreadyLogged) ∧
    (f.runTakenCare (b :: bs)).2 = { f with takenCare := some b } := by
  have hset : f.SetTakenCare b = (.OK, { f with takenCare := some b }) := by
    simp [Facts.SetTakenCare, h]
  have hrun := runTakenCare_of_set { f with takenCare := some b } b rfl bs
  constructor <;> simp [Facts.runTakenCare, hset, hrun]

/-- Witness for C3 at a zero record and the call sequence
return, log, return. -/
theorem setTakenCare_forward_only_witness :
    (Facts.runTakenCare ⟨none, none, false, []⟩ (true :: [false, true])).1 =
      FactSetTakenCareStatus.OK ::
        [false, true].map (fun _ => if true then FactSetTakenCareStatus.AlreadyReturned
          else FactSetTakenCareStatus.AlreadyLogged) ∧
    (Facts.runTakenCare ⟨none, none, false, []⟩ (true :: [false, true])).2 =
      { (⟨none, none, false, []⟩ : Facts) with takenCare := some true } :=
  setTakenCare_forward_only ⟨none, none, false, []⟩ true [false, true] rfl

theorem countExact_append (a b : List (Reference × Bool)) :
    countExact (a ++ b) = countExact a + countExact b := by
  simp [countExact, List.filter_append]

theorem countExact_filter_le (m : List (Reference × Bool))
    (p : Reference × Bool → Bool) : countExact (m.filter p) ≤ countExact m := by
  unfold countExact
  exact List.Sublist.length_le (List.Sublist.filter _ (List.filter_sublist m))

theorem countExact_eq_zero_of_no_exact (m : List (Reference × Bool))
    (h : m.any (fun e => e.2) = false) : countExact m = 0 := by
  unfold countExact
  rw [List.filter_eq_nil.mpr]
  · rfl
  · intro x hx
    exact fun hx2 => by simp [List.any_eq_false.mp h x hx hx2] at hx2 ⊢

theorem setClass_preserves_atMostOneExact (f : Facts) (c : Reference) (e : Bool)
    (h : countExact f.classOf ≤ 1) :
    countExact ((f.SetClass c e).2).classOf ≤ 1 := by
  unfold Facts.SetClass
  cases hc : goMapGet f.classOf c with
  | some v =>
    cases v <;> cases e <;> simpa using h
  | none =>
    by_cases hx : (e && f.classOf.any (fun e => e.2)) = true
    · simpa [hx] using h
    · simp only [hx, if_neg, Bool.not_eq_true]
      have : countExact (goMapSet f.classOf c e) ≤ 1 := by
        unfold goMapSet
        rw [countExact_append]
        cases he : e with
        | false =>
          have h1 : countExact [(c, false)] = 0 := by simp [countExact]
          have h2 := countExact_filter_le f.classOf (fun x => x.1 ≠ c)
          omega
        | true =>
          have hany : f.classOf.any (fun e => e.2) = false := by
            cases hy : f.classOf.any (fun e => e.2)
            · rfl
            · exact absurd (by simp [he, hy]) hx
          have h1 : countExact [(c, true)] = 1 := by simp [countExact]
          have h0 := countExact_eq_zero_of_no_exact f.classOf hany
          have h2 := countExact_filter_le f.classOf (fun x => x.1 ≠ c)
          omega
      simpa [hx] using this

/-- C6: the `class_of` map never holds two exact entries — the bound is
preserved by every `SetClass` sequence; an exact-impossible call leaves the
record unchanged; and an exact entry is recorded (map modified) only when no
exact entry existed. -/
theorem setClass_single_exact :
    (∀ (f : Facts) (calls : List (Reference × Bool)),
      countExact f.classOf ≤ 1 → countExact ((f.runSetClass calls).classOf) ≤ 1) ∧
    (∀ (f : Facts) (c : Reference) (e : Bool),
      (f.SetClass c e).1 = .ExactImpossible → (f.SetClass c e).2 = f) ∧
    (∀ (f : Facts) (c : Reference),
      ((f.SetClass c true).2).classOf ≠ f.classOf →
      f.classOf.any (fun x => x.2) = false) := by
  refine ⟨?_, ?_, ?_⟩
  · intro f calls
    induction calls generalizing f with
    | nil => intro h; simpa [Facts.runSetClass] using h
    | cons c cs ih =>
      intro h
      have hstep := setClass_preserves_atMostOneExact f c.1 c.2 h
      simpa [Facts.runSetClass] using ih _ hstep
  · intro f c e
    unfold Facts.SetClass
    cases hc : goMapGet f.classOf c with
    | none =>
      by_cases hx : (e && f.classOf.any (fun x => x.2)) = true
      · intro _
        simp [hx]
      · intro h
        simp [hx] at h
    | some v =>
      cases v <;> cases e <;> intro h <;> simp_all
  · intro f c h
    cases hy : f.classOf.any (fun x => x.2) with
    | false => rfl
    | true =>
      exfalso
      apply h
      unfold Facts.SetClass
      cases hc : goMapGet f.classOf c with
      | some v => cases v <;> simp
      | none => simp [hy]

/-- Witness for C6: the exact-entry bound after two exact `SetClass` calls
on a fresh record, the unchanged record on an exact-impossible call, and the
no-prior-exact fact at a recording call. -/
theorem setClass_single_exact_witness :
    countExact ((Facts.runSetClass ⟨none, none, false, []⟩
      [(⟨"io", "", "EOF"⟩, true), (⟨"os", "", "ErrNotExist"⟩, true)]).classOf) ≤ 1 ∧
    (Facts.SetClass ⟨none, none, false, [(⟨"io", "", "EOF"⟩, true)]⟩
        ⟨"os", "", "ErrNotExist"⟩ true).2 =
      ⟨none, none, false, [(⟨"io", "", "EOF"⟩, true)]⟩ ∧
    (⟨none, none, false, []⟩ : Facts).classOf.any (fun x => x.2) = false :=
  ⟨setClass_single_exact.1 ⟨none, none, false, []⟩ _ (by decide),
   setClass_single_exact.2.1 ⟨none, none, false, [(⟨"io", "", "EOF"⟩, true)]⟩ _ true
     (by decide),
   setClass_single_exact.2.2 ⟨none, none, false, []⟩ ⟨"io", "", "EOF"⟩
     (by decide)⟩

/-- C10: every `State` from `NewState` has nil maps, so its first `Var` call
panics on the nil-map assignment; a `State` obtained through `Clone` has
allocated maps and `Var` returns a fact record. -/
theorem newState_var_panics_clone_var_ok :
    (∀ name : String, NewState.Var name = .error ()) ∧
    (∀ (s : State) (name : String), ∃ f s', (State.Clone s).Var name = .ok (f, s')) := by
  constructor
  · intro name
    rfl
  · intro s name
    cases h : goMapGet (s.errors.getD []) name with
    | some v => exact ⟨v, s.Clone, by simp [State.Var, State.Clone, h]⟩
    | none =>
      refine ⟨{ notNil := none, takenCare := none, wrapped := false, classOf := [] },
        { errors := some (goMapSet (s.errors.getD []) name
            { notNil := none, takenCare := none, wrapped := false, classOf := [] }),
          exits := some (s.exits.getD []) }, ?_⟩
      simp [State.Var, State.Clone, h]

end tracing

namespace cir

/-- A concrete translator instance: package `main`, no module path, default
constructors; only the identifier `err` is error-typed and nothing resolves
through `Uses`/`Selections`. -/
def trCex : Translator :=
  { cfg := { Loggers := [], Checkers := [],
             Constructors := [⟨"errors", "New"⟩, ⟨"fmt", "Errorf"⟩] },
    pkgName := "main",
    modulePath := "",
    typeAssignableToError := fun e => match e with
      | .ident n => n == "err"
      | _ => false,
    assertTypeIsError := fun _ => false,
    uses := fun _ => none,
    selections := fun _ => none }

/-- An empty translator state (no named error returns in the signature). -/
def stCex : TranslatorState := { errVars := [], namedRet := [], funcName := "f" }

/-- The position of the modelled return statement. -/
def posCex : Pos := ⟨"snippet.go", 3, 2⟩

/-- `return fmt.Errorf("x: %w", err)` — a recognized wrapper call whose
inner error expression is the plain variable `err`. -/
def retWrapAliasCex : List GoExpr :=
  [.call (.selector (.ident "fmt") "Errorf") [.basicLit "\"x: %w\"", .ident "err"]]

/-- C2 counterexample: for `return fmt.Errorf("x: %w", err)` the call is
recognized as a wrapper, yet the translator emits only `Wrap` and `Return` —
no `Assign` node at all (the inner expression classifies as a plain alias
and the rebind is skipped). -/
theorem onReturn_wrapper_no_assign_for_alias :
    (trCex.classifyConstructorOrWrap (.selector (.ident "fmt") "Errorf")
      [.basicLit "\"x: %w\"", .ident "err"]).2.2.2 = true ∧
    trCex.onReturn stCex posCex retWrapAliasCex =
      [CIRNode.Wrap posCex "@err" "x" "fmt.Errorf",
       CIRNode.Return posCex "@err"] ∧
    ∀ n ∈ trCex.onReturn stCex posCex retWrapAliasCex, n.isAssign = false := by
  refine ⟨by decide, by decide, by decide⟩

/-- C2 (amended): for a return whose last expression is a recognized wrapper
call, the translator emits `Wrap` of the synthesized name (named error
return, else `@err`) followed by `Return` of it, preceded by an `Assign` of
the wrapper's inner error expression exactly when that expression does not
classify as a plain alias of an existing variable (for a plain alias the
rebind is skipped). -/
theorem onReturn_wrapper_shape (t : Translator) (st : TranslatorState)
    (pos : Pos) (results : List GoExpr) (fn : GoExpr) (args : List GoExpr)
    (hlast : results.getLast? = some (.call fn args))
    (hwrap : (t.classifyConstructorOrWrap fn args).2.2.2 = true) :
    t.onReturn st pos results =
      (let name0 := t.findNamedErrorReturn st
       let name := if name0 = "" then "@err" else name0
       let underlying : Option GoExpr :=
         if args.length > 1 then args.getLast? else none
       let src := t.classifyAssignSource underlying
       (if src.isAlias then [] else [CIRNode.Assign pos name src]) ++
         [CIRNode.Wrap pos name (t.classifyConstructorOrWrap fn args).2.1 "fmt.Errorf",
          CIRNode.Return pos name]) := by
  unfold Translator.onReturn
  rw [hlast]
  simp [isNilLiteral, hwrap]

/-- Witness for the amended C2: `return fmt.Errorf("x: %w", f())` — the
inner expression is a call (not an alias), so Assign, Wrap, Return appear
in order. -/
theorem onReturn_wrapper_shape_witness :
    trCex.onReturn stCex posCex
        [.call (.selector (.ident "fmt") "Errorf")
          [.basicLit "\"x: %w\"", .call (.ident "f") []]] =
      [CIRNode.Assign posCex "@err" (.Call "f()" true),
       CIRNode.Wrap posCex "@err" "x" "fmt.Errorf",
       CIRNode.Return posCex "@err"] := by
  have h := onReturn_wrapper_shape trCex stCex posCex
    [.call (.selector (.ident "fmt") "Errorf")
      [.basicLit "\"x: %w\"", .call (.ident "f") []]]
    (.selector (.ident "fmt") "Errorf")
    [.basicLit "\"x: %w\"", .call (.ident "f") []] rfl (by decide)
  rw [h]
  decide

/-- C5: a return statement whose last result expression is the literal `nil`
produces no CIR nodes. -/
theorem onReturn_nil_emits_nothing (t : Translator) (st : TranslatorState)
    (pos : Pos) (results : List GoExpr) (res : GoExpr)
    (hlast : results.getLast? = some res) (hnil : isNilLiteral res = true) :
    t.onReturn st pos results = [] := by
  unfold Translator.onReturn
  rw [hlast]
  simp [hnil]

/-- Witness for C5 at `return nil`. -/
theorem onReturn_nil_emits_nothing_witness :
    trCex.onReturn stCex posCex [.ident "nil"] = [] :=
  onReturn_nil_emits_nothing trCex stCex posCex [.ident "nil"] (.ident "nil")
    rfl rfl

/-- C8 counterexample: `normalizeWrapMsg " x : %w "` strips the trailing
`": %w"` after trimming, leaving `"x "` — a result with trailing
whitespace. -/
theorem normalizeWrapMsg_keeps_whitespace :
    normalizeWrapMsg "x : %w" = "x " ∧
    goHasSuffix (normalizeWrapMsg "x : %w") " " = true := by
  refine ⟨by decide, by decide⟩

theorem goTrimSuffix_spec (s suf : String) :
    goTrimSuffix s suf = s ∨ s = goTrimSuffix s suf ++ suf := by
  unfold goTrimSuffix
  by_cases h : goHasSuffix s suf = true
  · right
    rw [if_pos h]
    unfold goHasSuffix at h
    obtain ⟨pre, hpre⟩ := List.isSuffixOf_iff_suffix.mp h
    apply String.ext
    show s.data = s.data.take (s.data.length - suf.data.length) ++ suf.data
    have hpre' : pre ++ suf.data = s.data := hpre
    rw [← hpre', List.length_append, Nat.add_sub_cancel, List.take_left]
  · left
    rw [if_neg h]

/-- C8 (amended): normalization first trims surrounding whitespace and then
strips trailing `": %w"`, `" %w"`, `"(%w)"` fragments in that order (each at
most once): the trimmed input is the result followed by one of the eight
possible stripped suffixes.  The result itself may retain whitespace
uncovered by the stripping. -/
theorem normalizeWrapMsg_strips_suffix_of_trimmed (s : String) :
    ∃ suf, suf ∈ ["", ": %w", " %w", " %w: %w", "(%w)", "(%w): %w",
        "(%w) %w", "(%w) %w: %w"] ∧
      goTrimSpace s = normalizeWrapMsg s ++ suf := by
  have hnorm : normalizeWrapMsg s =
      goTrimSuffix (goTrimSuffix (goTrimSuffix (goTrimSpace s) ": %w") " %w") "(%w)" := rfl
  set a := goTrimSpace s with ha
  set b := goTrimSuffix a ": %w" with hb
  set c := goTrimSuffix b " %w" with hc
  set d := goTrimSuffix c "(%w)" with hd
  rcases goTrimSuffix_spec a ": %w" with h1 | h1 <;>
    rcases goTrimSuffix_spec b " %w" with h2 | h2 <;>
    rcases goTrimSuffix_spec c "(%w)" with h3 | h3 <;>
    rw [← hb] at h1 <;> rw [← hc] at h2 <;> rw [← hd] at h3
  · refine ⟨"", by simp, ?_⟩
    rw [hnorm, String.append_empty, h3, h2, h1]
  · refine ⟨"(%w)", by simp, ?_⟩
    rw [hnorm, ← h3, h2, h1]
  · refine ⟨" %w", by simp, ?_⟩
    rw [hnorm, h3, ← h2, h1]
  · refine ⟨"(%w) %w", by simp, ?_⟩
    rw [hnorm]
    calc a = c ++ " %w" := by rw [← h1]; exact h2
    _ = (d ++ "(%w)") ++ " %w" := by rw [h3]
    _ = d ++ "(%w) %w" := by rw [String.append_assoc]; rfl
  · refine ⟨": %w", by simp, ?_⟩
    rw [hnorm, h3, h2]
    exact h1
  · refine ⟨"(%w): %w", by simp, ?_⟩
    rw [hnorm]
    calc a = b ++ ": %w" := h1
    _ = c ++ ": %w" := by rw [h2]
    _ = (d ++ "(%w)") ++ ": %w" := by rw [h3]
    _ = d ++ "(%w): %w" := by rw [String.append_assoc]; rfl
  · refine ⟨" %w: %w", by simp, ?_⟩
    rw [hnorm, h3]
    calc a = b ++ ": %w" := h1
    _ = (c ++ " %w") ++ ": %w" := by rw [h2]
    _ = c ++ " %w: %w" := by rw [String.append_assoc]; rfl
  · refine ⟨"(%w) %w: %w", by simp, ?_⟩
    rw [hnorm]
    calc a = b ++ ": %w" := h1
    _ = (c ++ " %w") ++ ": %w" := by rw [h2]
    _ = ((d ++ "(%w)") ++ " %w") ++ ": %w" := by rw [h3]
    _ = d ++ "(%w) %w: %w" := by
      rw [String.append_assoc, String.append_assoc]; rfl

end cir

namespace cerrules

/-- C9 counterexample: the catalog value `CER100TextAndStyleRules` (12)
renders the range string `"CER100–CER145: TextAndStyleRules"`, which is not
of the form `CER<nnn>: <Name>`; and the duplicate catalog copy renders
unknown codes as `unknown-rule(n)` rather than `rule-unknown(n)`. -/
theorem ruleString_catalog_not_canonical :
    RuleString 12 = "CER100–CER145: TextAndStyleRules" ∧
    isCanonicalCode (RuleString 12) = false ∧
    RuleStringDup 11 = "unknown-rule(11)" := by
  refine ⟨by decide, by decide, by decide⟩

/-- C9 (amended): every catalog rule except `CER100TextAndStyleRules`
renders the canonical `CER<nnn>: <Name>` string; `CER100TextAndStyleRules`
renders the range string; every integer outside the catalog renders
`rule-unknown(n)` in the full-catalog `Rule.String` and `unknown-rule(n)` in
the duplicate reduced copy. -/
theorem ruleString_canonical_or_range :
    (∀ r : Int, r ∈ ([1, 2, 3, 4, 5, 6, 7, 8, 9, 10, 11, 13, 14, 15] : List Int) →
      isCanonicalCode (RuleString r) = true) ∧
    RuleString 12 = "CER100–CER145: TextAndStyleRules" ∧
    (∀ r : Int, r < 1 ∨ 15 < r →
      RuleString r = "rule-unknown(" ++ toString r ++ ")") ∧
    (∀ r : Int, r < 1 ∨ 10 < r →
      RuleStringDup r = "unknown-rule(" ++ toString r ++ ")") := by
  refine ⟨?_, by decide, ?_, ?_⟩
  · intro r hr
    fin_cases hr <;> decide
  · intro r hr
    have n1 : ¬ (r = 1) := by omega
    have n2 : ¬ (r = 2) := by omega
    have n3 : ¬ (r = 3) := by omega
    have n4 : ¬ (r = 4) := by omega
    have n5 : ¬ (r = 5) := by omega
    have n6 : ¬ (r = 6) := by omega
    have n7 : ¬ (r = 7) := by omega
    have n8 : ¬ (r = 8) := by omega
    have n9 : ¬ (r = 9) := by omega
    have n10 : ¬ (r = 10) := by omega
    have n11 : ¬ (r = 11) := by omega
    have n12 : ¬ (r = 12) := by omega
    have n13 : ¬ (r = 13) := by omega
    have n14 : ¬ (r = 14) := by omega
    have n15 : ¬ (r = 15) := by omega
    unfold RuleString
    simp only [if_neg n1, if_neg n2, if_neg n3, if_neg n4, if_neg n5, if_neg n6,
      if_neg n7, if_neg n8, if_neg n9, if_neg n10, if_neg n11, if_neg n12,
      if_neg n13, if_neg n14, if_neg n15]
  · intro r hr
    have m1 : ¬ (r = 1) := by omega
    have m2 : ¬ (r = 2) := by omega
    have m3 : ¬ (r = 3) := by omega
    have m4 : ¬ (r = 4) := by omega
    have m5 : ¬ (r = 5) := by omega
    have m6 : ¬ (r = 6) := by omega
    have m7 : ¬ (r = 7) := by omega
    have m8 : ¬ (r = 8) := by omega
    have m9 : ¬ (r = 9) := by omega
    have m10 : ¬ (r = 10) := by omega
    unfold RuleStringDup
    simp only [if_neg m1, if_neg m2, if_neg m3, if_neg m4, if_neg m5, if_neg m6,
      if_neg m7, if_neg m8, if_neg m9, if_neg m10]

/-- Witness for C9 (amended) at rule 1, the range rule, and the out-of-range
codes 100 and 11. -/
theorem ruleString_canonical_or_range_witness :
    isCanonicalCode (RuleString 1) = true ∧
    RuleString 100 = "rule-unknown(" ++ toString (100 : Int) ++ ")" ∧
    RuleStringDup 11 = "unknown-rule(" ++ toString (11 : Int) ++ ")" :=
  ⟨ruleString_canonical_or_range.1 1 (by decide),
   ruleString_canonical_or_range.2.2.1 100 (by omega),
   ruleString_canonical_or_range.2.2.2 11 (by omega)⟩

end cerrules

namespace tracing

theorem attachInto_nil (s : SpanNode) : attachInto [] s = some [s] := by
  rw [attachInto]
  simp [levelFind, insertDisjoint]

theorem cmpSpan_self (a b : Int) (n : Nat) (cs : List SpanNode) (h : a ≤ b) :
    cmpSpan (.mk a b n cs) (.mk a b n cs) = 0 := by
  unfold cmpSpan
  simp [SpanNode.start, SpanNode.stop]
  split_ifs <;> omega

theorem attachInto_self_again (a b : Int) (n : Nat) (h : a ≤ b) :
    attachInto [SpanNode.mk a b n []] (.mk a b n []) =
      some [.mk a b n [.mk a b n []]] := by
  have hfind : levelFind [SpanNode.mk a b n []] (SpanNode.mk a b n []) =
      some (SpanNode.mk a b n []) := by
    simp [levelFind, List.find?, cmpSpan_self a b n [] h]
  rw [attachInto]
  split
  · rename_i heq
    rw [hfind] at heq
    exact absurd heq (by simp)
  · rename_i r heq
    rw [hfind] at heq
    have hr : r = SpanNode.mk a b n [] := by
      injection heq with h'
      exact h'.symm
    subst hr
    simp [spanContains, SpanNode.start, SpanNode.stop, SpanNode.node,
      SpanNode.children, attachInto_nil, replaceFirst, cmpSpan_self a b n [] h]

/-- C7 counterexample: inserting the span `[1,2]` with node 7 twice produces
the once-inserted tree with the entry duplicated as its own child — not the
once-inserted tree. -/
theorem attachInto_twice_not_idempotent :
    ((attachInto [] (.mk 1 2 7 [])).bind fun t => attachInto t (.mk 1 2 7 [])) =
      some [.mk 1 2 7 [.mk 1 2 7 []]] ∧
    ((attachInto [] (.mk 1 2 7 [])).bind fun t => attachInto t (.mk 1 2 7 [])) ≠
      attachInto [] (.mk 1 2 7 []) := by
  have h1 := attachInto_nil (SpanNode.mk 1 2 7 [])
  have h2 := attachInto_self_again 1 2 7 (by omega)
  constructor
  · rw [h1]
    simpa using h2
  · rw [h1]
    simp [h2]

theorem descendSearch_leaf (a b : Int) (n : Nat) (pos : Int) :
    descendSearch (.mk a b n []) pos = n := by
  rw [descendSearch]
  split
  · simp [SpanNode.node]
  · rename_i c heq
    exact absurd heq (by simp [SpanNode.children, List.find?])

theorem descendSearch_self_child (a b : Int) (n : Nat) (pos : Int) :
    descendSearch (.mk a b n [.mk a b n []]) pos = n := by
  rw [descendSearch]
  split
  · simp [SpanNode.node]
  · rename_i c heq
    have hc : c = SpanNode.mk a b n [] := by
      simp only [SpanNode.children, List.find?] at heq
      rcases hx : (decide ((SpanNode.mk a b n []).start ≤ pos) &&
          decide (pos ≤ (SpanNode.mk a b n []).stop)) with _ | _ <;>
        rw [hx] at heq <;> simp at heq
      · exact heq.symm
    subst hc
    exact descendSearch_leaf a b n pos

/-- C7 (amended): inserting the same span/node twice into the empty index
yields the once-inserted tree with the old entry re-attached as the sole
child of a fresh copy of itself (the equal span takes the
new-span-contains-existing branch), and every position lookup still returns
the same node as after a single insertion. -/
theorem attachInto_twice_nests_duplicate (a b : Int) (n : Nat) (h : a ≤ b) :
    ((attachInto [] (.mk a b n [])).bind fun t => attachInto t (.mk a b n [])) =
      some [.mk a b n [.mk a b n []]] ∧
    ∀ pos : Int,
      ((attachInto [] (.mk a b n [])).bind fun t =>
          attachInto t (.mk a b n [])).map (fun t => GetByPos t pos) =
        (attachInto [] (.mk a b n [])).map (fun t => GetByPos t pos) := by
  have h1 := attachInto_nil (SpanNode.mk a b n [])
  have h2 := attachInto_self_again a b n h
  constructor
  · rw [h1]
    simpa using h2
  · intro pos
    rw [h1]
    show (attachInto [SpanNode.mk a b n []] (SpanNode.mk a b n [])).map
        (fun t => GetByPos t pos) =
      (some [SpanNode.mk a b n []]).map (fun t => GetByPos t pos)
    rw [h2]
    show some (GetByPos [SpanNode.mk a b n [SpanNode.mk a b n []]] pos) =
      some (GetByPos [SpanNode.mk a b n []] pos)
    unfold GetByPos
    cases hpred : (decide (a ≤ pos) && decide (pos ≤ b)) with
    | true =>
      simp [List.find?, SpanNode.start, SpanNode.stop, hpred,
        descendSearch_self_child, descendSearch_leaf]
    | false =>
      simp [List.find?, SpanNode.start, SpanNode.stop, hpred]

/-- Witness for the amended C7 at the span `[1,2]`, node 7, position 1. -/
theorem attachInto_twice_nests_duplicate_witness :
    ((attachInto [] (.mk 1 2 7 [])).bind fun t => attachInto t (.mk 1 2 7 [])) =
      some [.mk 1 2 7 [.mk 1 2 7 []]] ∧
    ((attachInto [] (.mk 1 2 7 [])).bind fun t =>
        attachInto t (.mk 1 2 7 [])).map (fun t => GetByPos t 1) =
      (attachInto [] (.mk 1 2 7 [])).map (fun t => GetByPos t 1) :=
  ⟨(attachInto_twice_nests_duplicate 1 2 7 (by decide)).1,
   (attachInto_twice_nests_duplicate 1 2 7 (by decide)).2 1⟩

theorem attachInto_cex_step2 :
    attachInto [SpanNode.mk 1 2 1 []] (.mk 4 5 2 []) =
      some [.mk 1 2 1 [], .mk 4 5 2 []] := by
  have hfind : levelFind [SpanNode.mk 1 2 1 []] (SpanNode.mk 4 5 2 []) = none := by
    simp [levelFind, List.find?, cmpSpan, SpanNode.start, SpanNode.stop]
  rw [attachInto]
  split
  · simp [insertDisjoint, SpanNode.start, SpanNode.stop]
  · rename_i r heq
    rw [hfind] at heq
    exact absurd heq (by simp)

theorem attachInto_cex_step3 :
    attachInto [SpanNode.mk 1 2 1 [], SpanNode.mk 4 5 2 []] (.mk 0 10 3 []) =
      some [.mk 0 10 3 [.mk 1 2 1 []], .mk 4 5 2 []] := by
  have hfind : levelFind [SpanNode.mk 1 2 1 [], SpanNode.mk 4 5 2 []]
      (SpanNode.mk 0 10 3 []) = some (SpanNode.mk 1 2 1 []) := by
    simp [levelFind, List.find?, cmpSpan, SpanNode.start, SpanNode.stop]
  rw [attachInto]
  split
  · rename_i heq
    rw [hfind] at heq
    exact absurd heq (by simp)
  · rename_i r heq
    rw [hfind] at heq
    have hr : r = SpanNode.mk 1 2 1 [] := by
      injection heq with h'
      exact h'.symm
    subst hr
    simp [spanContains, SpanNode.start, SpanNode.stop, SpanNode.node,
      SpanNode.children, attachInto_nil, replaceFirst, cmpSpan]

theorem descendSearch_cex :
    descendSearch (.mk 0 10 3 [.mk 1 2 1 []]) 4 = 3 := by
  rw [descendSearch]
  split
  · simp [SpanNode.node]
  · rename_i c heq
    exact absurd heq
      (by simp [SpanNode.children, List.find?, SpanNode.start, SpanNode.stop])

/-- C4 failing input: the spans `[1,2] → n1`, `[4,5] → n2`, `[0,10] → n3`
are pairwise disjoint-or-contained, yet after inserting them in this order a
lookup at position 4 returns n3 — the node of the outer span `[0,10]` — while
the unique innermost inserted span containing 4 is `[4,5]` with node n2.  The
promotion in `attachInto` fixes up only the one overlapping sibling the tree
hands back, leaving `[4,5]` beside the promoted `[0,10]` at top level. -/
theorem getByPos_misses_innermost_on_failing_input :
    (buildIndex [(1, 2, 1), (4, 5, 2), (0, 10, 3)]).map (fun t => GetByPos t 4) =
      some (some 3) ∧
    innermostNode [(1, 2, 1), (4, 5, 2), (0, 10, 3)] 4 = some 2 := by
  constructor
  · have hb : buildIndex [(1, 2, 1), (4, 5, 2), (0, 10, 3)] =
        some [.mk 0 10 3 [.mk 1 2 1 []], .mk 4 5 2 []] := by
      simp [buildIndex, contextAdd, attachInto_nil, attachInto_cex_step2,
        attachInto_cex_step3]
    rw [hb]
    simp [GetByPos, List.find?, SpanNode.start, SpanNode.stop, descendSearch_cex]
  · decide

end tracing

end Cerrful
